import Mathlib

/-!
Verification of the artist-download orchestrator from `src/artistdl.py`.

The Python source is shallowly embedded: pure data manipulation becomes Lean
functions, external collaborators (Last.fm chart lookup, YouTube Music search,
yt-dlp fetch, the filesystem) become oracle parameters, and exceptions become
`Except` values.  Ghost fields (event logs such as the list of video ids
passed to `AudioDownloader.download_song`, and the list of progress values
written) instrument the state so that the spec claims can be stated; they do
not influence control flow.
-/

namespace Artistdl

/-- A candidate track as built by `YouTubeMusicClient.search_song`
(src/artistdl.py lines 167-177).  `videoId` is `song.get("videoId")`, which
may be absent (`none`) or an empty string; `artists` is the list of
contributing artist names. Fields `album`, `duration`, `resultType` do not
influence the orchestrator logic and are omitted. -/
structure SongInfo where
  videoId : Option String
  title : String
  artists : List String
deriving Repr, DecidableEq

/-- One record of the JSON database, as appended by
`MusicDownloader.add_to_database` (lines 298-305). -/
structure DBEntry where
  id : String
  artist : String
  track : String
  download_date : String
deriving Repr, DecidableEq

/-- The statistics dictionary returned by
`MusicDownloader._download_artist_top_tracks` (lines 432-437). -/
structure Stats where
  total : Nat
  found : Nat
  downloaded : Nat
  failed : Nat
deriving Repr, DecidableEq

/-- `MusicDownloader.is_duplicate` (lines 292-294):
`any(song["id"] == video_id for song in self.database)`. -/
def is_duplicate (database : List DBEntry) (video_id : String) : Bool :=
  database.any (fun song => song.id == video_id)

/-- The observable content of the backing store file `database.json`.
`absent` models a missing file; `malformed` models a file whose text
`json.load` rejects with `JSONDecodeError` (an empty file or corrupt JSON);
`json db` models a file whose text parses to the entry list `db`.  The
`json` module is an external collaborator: serialisation of a list of
string-valued dicts followed by parsing is exact, so the store is modelled
at the level of the parsed value. -/
inductive FileContent
  | absent
  | malformed
  | json (db : List DBEntry)
deriving Repr, DecidableEq

/-- `MusicDownloader.load_database` (lines 277-285): a missing file yields
`[]`; `json.JSONDecodeError` is caught and yields `[]`; otherwise the parsed
list is returned. -/
def load_database : FileContent → List DBEntry
  | .absent => []
  | .malformed => []
  | .json db => db

/-- `MusicDownloader.save_database` (lines 287-290): opens the database file
for writing and dumps the whole in-memory list.  `writable` models whether
the backing store can be written; when it cannot, `open`/`json.dump` raises
`OSError`, modelled as `.error ()`.  The write is complete when the call
returns (the file is closed by the `with` block). -/
def save_database (writable : Bool) (database : List DBEntry) :
    Except Unit FileContent :=
  if writable then .ok (.json database) else .error ()

/-- `MusicDownloader.add_to_database` (lines 296-306): appends the new record
to the in-memory list and then calls `save_database`.  The in-memory append
happens before the save, so it survives a failing save; the second component
carries the outcome of the save (an uncaught `OSError` on failure). -/
def add_to_database (writable : Bool) (database : List DBEntry)
    (video_id artist track date : String) : List DBEntry × Except Unit FileContent :=
  let db := database ++ [⟨video_id, artist, track, date⟩]
  (db, save_database writable db)

theorem is_duplicate_append (db : List DBEntry) (e : DBEntry) (v : String) :
    is_duplicate (db ++ [e]) v = (is_duplicate db v || (e.id == v)) := by
  simp [is_duplicate]

theorem is_duplicate_add_self (writable : Bool) (db : List DBEntry)
    (vid a t d : String) :
    is_duplicate (add_to_database writable db vid a t d).1 vid = true := by
  simp [add_to_database, is_duplicate_append]

/-- C7: loading the database at startup from an absent backing file, or from
a file whose contents do not parse (empty file or corrupt JSON, both raising
`json.JSONDecodeError`, which `load_database` catches), yields the empty
ledger without raising. -/
theorem C7_load_tolerates_bad_store :
    load_database .absent = [] ∧ load_database .malformed = [] :=
  ⟨rfl, rfl⟩

/-- C8: appending an entry with `add_to_database` (which persists the whole
list via `save_database`) and then reloading the store with `load_database`
yields exactly the entries of the in-memory ledger after the append; in
particular the two are equivalent as an id-keyed set, order preserved. -/
theorem C8_append_reload_roundtrip (db : List DBEntry) (vid a t d : String) :
    ∃ f : FileContent, (add_to_database true db vid a t d).2 = .ok f ∧
      ∀ e : DBEntry, e ∈ load_database f ↔ e ∈ (add_to_database true db vid a t d).1 := by
  refine ⟨.json (db ++ [⟨vid, a, t, d⟩]), ?_, ?_⟩
  · rfl
  · intro e
    simp [load_database, add_to_database]

/-- C6 counterexample: with an unwritable backing store, `add_to_database`
raises (the `OSError` from `save_database` is uncaught), yet the in-memory
ledger already contains the entry, so `is_duplicate` reports it as recorded
- the state is NOT as if the entry was never recorded. -/
theorem C6_counterexample :
    (add_to_database false [] "a" "Artist" "Track" "2024-01-01").2 = .error () ∧
      is_duplicate (add_to_database false [] "a" "Artist" "Track" "2024-01-01").1 "a" = true := by
  exact ⟨rfl, by decide⟩

/-- C6 amended: if the backing store cannot be written, `add_to_database`
propagates the write error (there is no handler, so the job aborts rather
than continuing), and the entry remains visible in the in-memory ledger:
`is_duplicate` reports it as recorded. -/
theorem C6_amended_append_failure (db : List DBEntry) (vid a t d : String) :
    (add_to_database false db vid a t d).2 = .error () ∧
      is_duplicate (add_to_database false db vid a t d).1 vid = true :=
  ⟨rfl, is_duplicate_add_self false db vid a t d⟩

/-- The evolving state of the per-candidate loop of
`MusicDownloader._download_artist_top_tracks` (lines 390-430).  `database`
mirrors `self.database`; `downloaded` and `failed` mirror the two counters.
Ghost instrumentation: `skippedNoId` counts candidates skipped at line 394
(missing or empty `videoId`), `skippedDup` counts candidates skipped at line
398 (duplicate), `fetched` logs, in order, every video id passed to
`AudioDownloader.download_song` (line 411), and `progressWrites` logs, in
order, every value assigned to the progress field of the current job
(line 405). -/
structure LoopState where
  database : List DBEntry
  downloaded : Nat
  failed : Nat
  skippedNoId : Nat
  skippedDup : Nat
  fetched : List String
  progressWrites : List ℚ
deriving Repr, DecidableEq

/-- Loop state at entry of the candidate loop: counters zero, no events. -/
def initLoopState (database : List DBEntry) : LoopState :=
  ⟨database, 0, 0, 0, 0, [], []⟩

/-- The progress value of the job at a given moment: the last value written,
or 0 (the value set at enqueue, line 311) if no write has happened. -/
def finalProgress (st : LoopState) : ℚ :=
  st.progressWrites.getLastD 0

/-- `enumerate(valid_tracks, 1)` of line 393: pairs each element with its
1-based position. -/
def enumerate1 {α : Type} (l : List α) : List (Nat × α) :=
  (List.range' 1 l.length).zip l

/-- The test of line 394, `not track or not track.get("videoId")`, restricted
to dictionaries produced by `search_song` (which always carry every key, so
`not track` is never true): the candidate has no usable catalog id iff
`videoId` is `None` or the empty string. -/
def noCatalogId (track : SongInfo) : Bool :=
  match track.videoId with
  | none => true
  | some vid => vid.isEmpty

/-- One iteration of the candidate loop (lines 393-430) for the pair
`(i, track)` delivered by `enumerate(valid_tracks, 1)`, where `n` is
`len(valid_tracks)`.  In source order: skip on missing id (line 394), skip on
duplicate (line 398), write progress `(i / n) * 100` (line 405), call
`download_song` (line 411, logged in `fetched`; its outcome is the oracle
`fetch`), and on success increment `downloaded` and call `add_to_database`
(lines 414-418) whose write failure propagates as an uncaught exception,
carried here as `.error` with the state at the raise; on failure increment
`failed` (line 429). -/
def processTrack (writable : Bool) (fetch : String → Bool) (reqArtist date : String)
    (n : Nat) (st : LoopState) (it : Nat × SongInfo) : Except LoopState LoopState :=
  let track := it.2
  match track.videoId with
  | none => .ok { st with skippedNoId := st.skippedNoId + 1 }
  | some vid =>
    if vid.isEmpty then .ok { st with skippedNoId := st.skippedNoId + 1 }
    else if is_duplicate st.database vid then .ok { st with skippedDup := st.skippedDup + 1 }
    else
      let artistName := track.artists.headD reqArtist
      let st1 := { st with
        progressWrites := st.progressWrites ++ [(it.1 : ℚ) / (n : ℚ) * 100],
        fetched := st.fetched ++ [vid] }
      if fetch vid then
        let add := add_to_database writable st1.database vid artistName track.title date
        let st2 := { st1 with downloaded := st1.downloaded + 1, database := add.1 }
        match add.2 with
        | .ok _ => .ok st2
        | .error _ => .error st2
      else .ok { st1 with failed := st1.failed + 1 }

/-- The candidate loop of lines 393-430 over the enumerated list; a raised
ledger-write exception aborts the remaining iterations. -/
def downloadLoopF (writable : Bool) (fetch : String → Bool) (reqArtist date : String)
    (n : Nat) : List (Nat × SongInfo) → LoopState → Except LoopState LoopState
  | [], st => .ok st
  | it :: rest, st =>
    match processTrack writable fetch reqArtist date n st it with
    | .ok st1 => downloadLoopF writable fetch reqArtist date n rest st1
    | .error st1 => .error st1

/-- The loop state reached in either outcome (normal return or abort). -/
def resState : Except LoopState LoopState → LoopState
  | .ok st => st
  | .error st => st

/-- Exceptions that escape `_download_artist_top_tracks`: the `ValueError`
of line 362 for an empty artist name, and the uncaught `OSError` of a failing
`save_database` (line 289), which propagates out of `add_to_database` and
out of the candidate loop. -/
inductive JobError
  | valueError
  | persistenceError (st : LoopState)
deriving Repr, DecidableEq

/-- `MusicDownloader._download_artist_top_tracks` (lines 348-440).
Collaborator oracles: `get_top_tracks` models `LastFMClient.get_top_tracks`
(`none` = `MusicDownloaderError`, caught at line 371 and answered with
all-zero stats); `search_song` models `YouTubeMusicClient.search_song`
(`none` results are filtered out at line 383); `fetch` models success or
failure of `AudioDownloader.download_song` (which never raises).
`Tagger.apply_tags` swallows every exception (line 80) and touches no
orchestrator state, so it does not appear. -/
def download_artist_top_tracks (writable : Bool)
    (get_top_tracks : String → Nat → Option (List String))
    (search_song : String → String → Option SongInfo)
    (fetch : String → Bool) (date : String)
    (database : List DBEntry) (artist : String) (limit : Nat) :
    Except JobError (Stats × LoopState) :=
  if artist.isEmpty then .error .valueError
  else
    match get_top_tracks artist limit with
    | none => .ok (⟨0, 0, 0, 0⟩, initLoopState database)
    | some top_tracks =>
      let found_tracks := top_tracks.map (search_song artist)
      let valid_tracks := found_tracks.filterMap id
      match downloadLoopF writable fetch artist date valid_tracks.length
          (enumerate1 valid_tracks) (initLoopState database) with
      | .ok st =>
        .ok (⟨top_tracks.length, valid_tracks.length, st.downloaded, st.failed⟩, st)
      | .error st => .error (.persistenceError st)

/-- The video ids passed to `download_song` during a job, in either outcome
(a job killed by a ledger-write exception still fetched its earlier
candidates; a job rejected for an empty artist name fetched none). -/
def jobFetched : Except JobError (Stats × LoopState) → List String
  | .ok (_, st) => st.fetched
  | .error .valueError => []
  | .error (.persistenceError st) => st.fetched

theorem processTrack_preserves_dup_unfetched (writable : Bool) (fetch : String → Bool)
    (reqArtist date : String) (n : Nat) (st : LoopState) (it : Nat × SongInfo) (v : String)
    (hdup : is_duplicate st.database v = true) (hnf : v ∉ st.fetched) :
    is_duplicate (resState (processTrack writable fetch reqArtist date n st it)).database v = true ∧
      v ∉ (resState (processTrack writable fetch reqArtist date n st it)).fetched := by
  obtain ⟨i, track⟩ := it
  cases hvid : track.videoId with
  | none =>
    simp only [processTrack, hvid, resState]
    exact ⟨hdup, hnf⟩
  | some vid =>
    by_cases he : vid.isEmpty
    · simp only [processTrack, hvid, he, if_true, resState]
      exact ⟨hdup, hnf⟩
    · by_cases hd : is_duplicate st.database vid
      · simp only [processTrack, hvid, he, hd, if_true, if_false, Bool.false_eq_true,
          resState]
        exact ⟨hdup, hnf⟩
      · have hne : v ≠ vid := by
          intro hv
          rw [hv] at hdup
          exact hd hdup
        by_cases hf : fetch vid
        · cases writable with
          | true =>
            simp only [processTrack, hvid, he, hd, hf, if_true, if_false,
              Bool.false_eq_true, add_to_database, save_database, resState]
            constructor
            · simp [is_duplicate_append, hdup]
            · simp [List.mem_append, hnf, hne]
          | false =>
            simp only [processTrack, hvid, he, hd, hf, if_true, if_false,
              Bool.false_eq_true, add_to_database, save_database, resState]
            constructor
            · simp [is_duplicate_append, hdup]
            · simp [List.mem_append, hnf, hne]
        · simp only [processTrack, hvid, he, hd, hf, if_true, if_false,
            Bool.false_eq_true, resState]
          constructor
          · exact hdup
          · simp [List.mem_append, hnf, hne]

theorem downloadLoopF_no_fetch_of_dup (writable : Bool) (fetch : String → Bool)
    (reqArtist date : String) (n : Nat) (l : List (Nat × SongInfo)) (st : LoopState)
    (v : String) (hdup : is_duplicate st.database v = true) (hnf : v ∉ st.fetched) :
    v ∉ (resState (downloadLoopF writable fetch reqArtist date n l st)).fetched := by
  induction l generalizing st with
  | nil => exact hnf
  | cons it rest ih =>
    have hpres := processTrack_preserves_dup_unfetched writable fetch reqArtist date n st it v
      hdup hnf
    unfold downloadLoopF
    cases hpt : processTrack writable fetch reqArtist date n st it with
    | ok st1 =>
      rw [hpt] at hpres
      exact ih st1 hpres.1 hpres.2
    | error st1 =>
      rw [hpt] at hpres
      exact hpres.2

/-- C1: a resolved candidate whose catalog id is already in the ledger the
job runs against is never passed to `AudioDownloader.download_song`: the
duplicate check of line 398 runs before the download of line 411, and the
ledger only grows during the job, so the id stays a duplicate throughout. -/
theorem C1_duplicate_never_fetched (writable : Bool)
    (get_top_tracks : String → Nat → Option (List String))
    (search_song : String → String → Option SongInfo)
    (fetch : String → Bool) (date : String) (database : List DBEntry)
    (artist : String) (limit : Nat) (v : String)
    (hdup : is_duplicate database v = true) :
    v ∉ jobFetched (download_artist_top_tracks writable get_top_tracks search_song
      fetch date database artist limit) := by
  unfold download_artist_top_tracks
  by_cases ha : artist.isEmpty
  · simp [ha, jobFetched]
  · simp only [ha, Bool.false_eq_true, if_false]
    cases get_top_tracks artist limit with
    | none => simp [jobFetched, initLoopState]
    | some top_tracks =>
      simp only []
      have hloop := downloadLoopF_no_fetch_of_dup writable fetch artist date
        ((top_tracks.map (search_song artist)).filterMap id).length
        (enumerate1 ((top_tracks.map (search_song artist)).filterMap id))
        (initLoopState database) v hdup (by simp [initLoopState])
      cases hres : downloadLoopF writable fetch artist date
          ((top_tracks.map (search_song artist)).filterMap id).length
          (enumerate1 ((top_tracks.map (search_song artist)).filterMap id))
          (initLoopState database) with
      | ok st =>
        rw [hres] at hloop
        simpa [jobFetched] using hloop
      | error st =>
        rw [hres] at hloop
        simpa [jobFetched] using hloop

/-- C1 witness: with a ledger already holding id `a`, a job whose single
candidate resolves to id `a` never calls the fetch pipeline on it. -/
theorem C1_witness :
    is_duplicate [⟨"a", "Artist", "Track", "2024-01-01"⟩] "a" = true ∧
      "a" ∉ jobFetched (download_artist_top_tracks true
        (fun _ _ => some ["Track"])
        (fun _ _ => some ⟨some "a", "Track", ["Artist"]⟩)
        (fun _ => true) "2024-01-02"
        [⟨"a", "Artist", "Track", "2024-01-01"⟩] "Artist" 1) :=
  ⟨by decide,
    C1_duplicate_never_fetched true (fun _ _ => some ["Track"])
      (fun _ _ => some ⟨some "a", "Track", ["Artist"]⟩) (fun _ => true) "2024-01-02"
      [⟨"a", "Artist", "Track", "2024-01-01"⟩] "Artist" 1 "a" (by decide)⟩

/-- The four counters of the candidate loop, summed. -/
def countSum (st : LoopState) : Nat :=
  st.downloaded + st.failed + st.skippedNoId + st.skippedDup

theorem processTrack_writable_ok (fetch : String → Bool) (reqArtist date : String)
    (n : Nat) (st : LoopState) (it : Nat × SongInfo) :
    ∃ st1, processTrack true fetch reqArtist date n st it = .ok st1 ∧
      countSum st1 = countSum st + 1 ∧ st1.database.length ≥ st.database.length := by
  obtain ⟨i, track⟩ := it
  cases hvid : track.videoId with
  | none =>
    refine ⟨{ st with skippedNoId := st.skippedNoId + 1 }, ?_, ?_, ?_⟩
    · simp only [processTrack, hvid]
    · simp [countSum]
      omega
    · simp
  | some vid =>
    by_cases he : vid.isEmpty
    · refine ⟨{ st with skippedNoId := st.skippedNoId + 1 }, ?_, ?_, ?_⟩
      · simp only [processTrack, hvid, he, if_true]
      · simp [countSum]
        omega
      · simp
    · by_cases hd : is_duplicate st.database vid
      · refine ⟨{ st with skippedDup := st.skippedDup + 1 }, ?_, ?_, ?_⟩
        · simp only [processTrack, hvid, he, hd, if_true, if_false, Bool.false_eq_true]
        · simp [countSum]
          omega
        · simp
      · by_cases hf : fetch vid
        · refine ⟨{ st with
              database := st.database ++
                [⟨vid, track.artists.headD reqArtist, track.title, date⟩],
              downloaded := st.downloaded + 1,
              fetched := st.fetched ++ [vid],
              progressWrites := st.progressWrites ++ [(i : ℚ) / (n : ℚ) * 100] },
            ?_, ?_, ?_⟩
          · simp only [processTrack, hvid, he, hd, hf, if_true, if_false,
              Bool.false_eq_true, add_to_database, save_database]
          · simp [countSum]
            omega
          · simp
        · refine ⟨{ st with
              failed := st.failed + 1,
              fetched := st.fetched ++ [vid],
              progressWrites := st.progressWrites ++ [(i : ℚ) / (n : ℚ) * 100] },
            ?_, ?_, ?_⟩
          · simp only [processTrack, hvid, he, hd, hf, if_true, if_false,
              Bool.false_eq_true]
          · simp [countSum]
            omega
          · simp

theorem downloadLoopF_writable_ok (fetch : String → Bool) (reqArtist date : String)
    (n : Nat) (l : List (Nat × SongInfo)) (st : LoopState) :
    ∃ st1, downloadLoopF true fetch reqArtist date n l st = .ok st1 ∧
      countSum st1 = countSum st + l.length := by
  induction l generalizing st with
  | nil => exact ⟨st, rfl, by simp [countSum]⟩
  | cons it rest ih =>
    obtain ⟨st1, hok, hsum, -⟩ := processTrack_writable_ok fetch reqArtist date n st it
    obtain ⟨st2, hok2, hsum2⟩ := ih st1
    refine ⟨st2, ?_, ?_⟩
    · unfold downloadLoopF
      rw [hok]
      exact hok2
    · rw [hsum2, hsum]
      simp
      omega

theorem length_enumerate1 {α : Type} (l : List α) : (enumerate1 l).length = l.length := by
  simp [enumerate1]

/-- C10: the statistics of a completed job partition the found candidates:
downloaded plus failed plus skipped (no catalog id, or already in the
ledger) equals found, found never exceeds total, hence downloaded plus
failed never exceeds found; and a candidate with a missing or empty catalog
id is skipped without touching the downloaded or failed counters. -/
theorem C10_stats_partition
    (get_top_tracks : String → Nat → Option (List String))
    (search_song : String → String → Option SongInfo)
    (fetch : String → Bool) (date : String) (database : List DBEntry)
    (artist : String) (limit : Nat) (stats : Stats) (st : LoopState)
    (n0 i0 : Nat) (st0 : LoopState) (t0 : SongInfo)
    (h : download_artist_top_tracks true get_top_tracks search_song fetch date
      database artist limit = .ok (stats, st))
    (ht : noCatalogId t0 = true) :
    stats.downloaded + stats.failed + st.skippedNoId + st.skippedDup = stats.found ∧
      stats.found ≤ stats.total ∧ stats.downloaded + stats.failed ≤ stats.found ∧
      processTrack true fetch artist date n0 st0 (i0, t0) =
        .ok { st0 with skippedNoId := st0.skippedNoId + 1 } := by
  have hnoid : processTrack true fetch artist date n0 st0 (i0, t0) =
      .ok { st0 with skippedNoId := st0.skippedNoId + 1 } := by
    cases hvid : t0.videoId with
    | none => simp only [processTrack, hvid]
    | some vid =>
      have he : vid.isEmpty := by
        simpa [noCatalogId, hvid] using ht
      simp only [processTrack, hvid, he, if_true]
  unfold download_artist_top_tracks at h
  by_cases ha : artist.isEmpty
  · rw [ha] at h
    simp at h
  · rw [Bool.not_eq_true] at ha
    rw [ha] at h
    simp only [Bool.false_eq_true, if_false] at h
    cases hg : get_top_tracks artist limit with
    | none =>
      rw [hg] at h
      rw [Except.ok.injEq, Prod.mk.injEq] at h
      obtain ⟨hstats, hst⟩ := h
      rw [← hstats, ← hst]
      refine ⟨by simp [initLoopState], by simp, by simp, hnoid⟩
    | some top_tracks =>
      rw [hg] at h
      obtain ⟨st1, hok, hsum⟩ := downloadLoopF_writable_ok fetch artist date
        ((top_tracks.map (search_song artist)).filterMap id).length
        (enumerate1 ((top_tracks.map (search_song artist)).filterMap id))
        (initLoopState database)
      simp only [] at h
      rw [hok, Except.ok.injEq, Prod.mk.injEq] at h
      obtain ⟨hstats, hst⟩ := h
      have hinit : countSum (initLoopState database) = 0 := by
        simp [countSum, initLoopState]
      rw [length_enumerate1, hinit] at hsum
      simp only [countSum] at hsum
      rw [← hstats, ← hst]
      refine ⟨?_, ?_, ?_, hnoid⟩
      · dsimp only
        omega
      · dsimp only
        simpa using List.length_filterMap_le id (top_tracks.map (search_song artist))
      · dsimp only
        omega

/-- C10 witness: a concrete completed job (one resolved candidate,
successfully fetched) whose statistics satisfy the partition, and a concrete
no-id candidate that increments neither the downloaded nor the failed
counter. -/
theorem C10_witness :
    download_artist_top_tracks true (fun _ _ => some ["Track"])
        (fun _ _ => some ⟨some "a", "Track", ["Artist"]⟩) (fun _ => true) "2024-01-02"
        [] "Artist" 1 =
      .ok (⟨1, 1, 1, 0⟩,
        ⟨[⟨"a", "Artist", "Track", "2024-01-02"⟩], 1, 0, 0, 0, ["a"],
          [((1 : Nat) : ℚ) / ((1 : Nat) : ℚ) * 100]⟩) ∧
      noCatalogId ⟨none, "T", []⟩ = true ∧
      (1 + 0 + 0 + 0 = 1 ∧ 1 ≤ 1 ∧ 1 + 0 ≤ 1 ∧
        processTrack true (fun _ => true) "Artist" "2024-01-02" 5 (initLoopState [])
          (3, ⟨none, "T", []⟩) =
          .ok { initLoopState [] with skippedNoId := (initLoopState []).skippedNoId + 1 }) :=
  ⟨by rfl, by decide,
    C10_stats_partition (fun _ _ => some ["Track"])
      (fun _ _ => some ⟨some "a", "Track", ["Artist"]⟩) (fun _ => true) "2024-01-02"
      [] "Artist" 1 ⟨1, 1, 1, 0⟩
      ⟨[⟨"a", "Artist", "Track", "2024-01-02"⟩], 1, 0, 0, 0, ["a"],
        [((1 : Nat) : ℚ) / ((1 : Nat) : ℚ) * 100]⟩
      5 3 (initLoopState []) ⟨none, "T", []⟩ (by rfl) (by decide)⟩

/-- The candidate is skipped by the loop body without a progress write: the
`continue` of line 395 (no usable catalog id) or of line 400 (the id is
already in the database at the time of the check). -/
def skips (st : LoopState) (track : SongInfo) : Bool :=
  match track.videoId with
  | none => true
  | some vid => vid.isEmpty || is_duplicate st.database vid

/-- The loop state after the worker has handled the first `k` elements of
`valid_tracks` (with a writable store, where every iteration returns
normally). -/
def stateAfter (fetch : String → Bool) (reqArtist date : String)
    (database : List DBEntry) (valid : List SongInfo) (k : Nat) : LoopState :=
  ((enumerate1 valid).take k).foldl
    (fun st it => resState (processTrack true fetch reqArtist date valid.length st it))
    (initLoopState database)

theorem enumerate1_getElem {α : Type} (l : List α) (k : Nat)
    (hk1 : k < (enumerate1 l).length) (hk2 : k < l.length) :
    (enumerate1 l)[k] = (k + 1, l[k]) := by
  unfold enumerate1
  rw [List.getElem_zip]
  rw [List.getElem_range']
  simp [Nat.add_comm]

theorem stateAfter_succ (fetch : String → Bool) (reqArtist date : String)
    (database : List DBEntry) (valid : List SongInfo) (k : Nat) (hk : k < valid.length) :
    stateAfter fetch reqArtist date database valid (k + 1) =
      resState (processTrack true fetch reqArtist date valid.length
        (stateAfter fetch reqArtist date database valid k) (k + 1, valid[k])) := by
  unfold stateAfter
  rw [List.take_succ]
  have hlen : k < (enumerate1 valid).length := by
    rw [length_enumerate1]
    exact hk
  rw [List.getElem?_eq_getElem hlen, enumerate1_getElem valid k hlen hk]
  rw [List.foldl_append]
  rfl

theorem processTrack_skip_writes (fetch : String → Bool) (reqArtist date : String)
    (n : Nat) (st : LoopState) (i : Nat) (track : SongInfo)
    (hs : skips st track = true) :
    (resState (processTrack true fetch reqArtist date n st (i, track))).progressWrites =
      st.progressWrites := by
  cases hvid : track.videoId with
  | none => simp only [processTrack, hvid, resState]
  | some vid =>
    have hor : vid.isEmpty || is_duplicate st.database vid := by
      simpa [skips, hvid] using hs
    by_cases he : vid.isEmpty
    · simp only [processTrack, hvid, he, if_true, resState]
    · have hd : is_duplicate st.database vid = true := by
        rcases Bool.or_eq_true_iff.mp hor with h | h
        · exact absurd h he
        · exact h
      simp only [processTrack, hvid, he, hd, if_true, if_false, Bool.false_eq_true,
        resState]

theorem processTrack_noskip_writes (fetch : String → Bool) (reqArtist date : String)
    (n : Nat) (st : LoopState) (i : Nat) (track : SongInfo)
    (hs : skips st track = false) :
    (resState (processTrack true fetch reqArtist date n st (i, track))).progressWrites =
      st.progressWrites ++ [(i : ℚ) / (n : ℚ) * 100] := by
  cases hvid : track.videoId with
  | none => simp [skips, hvid] at hs
  | some vid =>
    have hne : vid.isEmpty = false ∧ is_duplicate st.database vid = false := by
      simpa [skips, hvid] using hs
    by_cases hf : fetch vid
    · simp only [processTrack, hvid, hne.1, hne.2, hf, if_true, if_false,
        Bool.false_eq_true, add_to_database, save_database, resState]
    · simp only [processTrack, hvid, hne.1, hne.2, hf, if_true, if_false,
        Bool.false_eq_true, resState]

/-- C4 counterexample: a job with two resolved candidates whose first
candidate is already in the ledger.  After the worker has handled the first
candidate (k = 1, n = 2) the claim asserts progress (1 / 2) * 100 = 50, but
the skip happens before the progress write of line 405, so the progress is
still 0. -/
theorem C4_counterexample :
    finalProgress (stateAfter (fun _ => true) "Artist" "2024-01-02"
        [⟨"a", "Artist", "T1", "2024-01-01"⟩]
        [⟨some "a", "T1", ["Artist"]⟩, ⟨some "b", "T2", ["Artist"]⟩] 1) = 0 ∧
      (1 : ℚ) / 2 * 100 = 50 ∧ (0 : ℚ) ≠ 50 := by
  refine ⟨?_, by norm_num, by norm_num⟩
  rfl

/-- C4 amended: after the worker finishes handling the k-th of n resolved
candidates, the progress equals (k / n) * 100 only when that candidate was
actually passed to the fetch pipeline; a candidate skipped as a duplicate or
for a missing catalog id leaves the progress at its previous value (the
enumeration index still advances, so the next write jumps accordingly). -/
theorem C4_amended_progress_after_candidate (fetch : String → Bool)
    (reqArtist date : String) (database : List DBEntry) (valid : List SongInfo)
    (k : Nat) (hk : k < valid.length) :
    (skips (stateAfter fetch reqArtist date database valid k) valid[k] = true →
      finalProgress (stateAfter fetch reqArtist date database valid (k + 1)) =
        finalProgress (stateAfter fetch reqArtist date database valid k)) ∧
    (skips (stateAfter fetch reqArtist date database valid k) valid[k] = false →
      finalProgress (stateAfter fetch reqArtist date database valid (k + 1)) =
        ((k : ℚ) + 1) / (valid.length : ℚ) * 100) := by
  constructor
  · intro hs
    rw [stateAfter_succ fetch reqArtist date database valid k hk]
    unfold finalProgress
    rw [processTrack_skip_writes fetch reqArtist date valid.length _ (k + 1) valid[k] hs]
  · intro hs
    rw [stateAfter_succ fetch reqArtist date database valid k hk]
    unfold finalProgress
    rw [processTrack_noskip_writes fetch reqArtist date valid.length _ (k + 1) valid[k] hs]
    rw [List.getLastD_concat]
    push_cast
    ring

/-- C4 witness: instantiates the amended statement on a two-candidate job
whose first candidate is a duplicate: the second candidate is not skipped,
and handling it sets progress to (2 / 2) * 100. -/
theorem C4_witness :
    (1 : Nat) < 2 ∧
      skips (stateAfter (fun _ => true) "Artist" "2024-01-02"
          [⟨"a", "Artist", "T1", "2024-01-01"⟩]
          [⟨some "a", "T1", ["Artist"]⟩, ⟨some "b", "T2", ["Artist"]⟩] 1)
        (⟨some "b", "T2", ["Artist"]⟩ : SongInfo) = false ∧
      finalProgress (stateAfter (fun _ => true) "Artist" "2024-01-02"
          [⟨"a", "Artist", "T1", "2024-01-01"⟩]
          [⟨some "a", "T1", ["Artist"]⟩, ⟨some "b", "T2", ["Artist"]⟩] 2) =
        (((1 : Nat) : ℚ) + 1) / (([⟨some "a", "T1", ["Artist"]⟩,
          ⟨some "b", "T2", ["Artist"]⟩] : List SongInfo).length : ℚ) * 100 := by
  refine ⟨by decide, by decide, ?_⟩
  exact (C4_amended_progress_after_candidate (fun _ => true) "Artist" "2024-01-02"
    [⟨"a", "Artist", "T1", "2024-01-01"⟩]
    [⟨some "a", "T1", ["Artist"]⟩, ⟨some "b", "T2", ["Artist"]⟩] 1 (by decide)).2
    (by decide)

/-- The value written to the progress field for the i-th of n candidates:
`(i / len(valid_tracks)) * 100` of line 405. -/
def progressOf (n i : Nat) : ℚ :=
  (i : ℚ) / (n : ℚ) * 100

theorem downloadLoopF_writes_sublist (fetch : String → Bool) (reqArtist date : String)
    (n : Nat) (l : List (Nat × SongInfo)) (st : LoopState) :
    ∃ idxs : List Nat, idxs.Sublist (l.map Prod.fst) ∧
      (resState (downloadLoopF true fetch reqArtist date n l st)).progressWrites =
        st.progressWrites ++ idxs.map (progressOf n) := by
  induction l generalizing st with
  | nil => exact ⟨[], List.Sublist.refl [], by simp [downloadLoopF, resState]⟩
  | cons it rest ih =>
    obtain ⟨i, track⟩ := it
    obtain ⟨st1, hok, -, -⟩ := processTrack_writable_ok fetch reqArtist date n st (i, track)
    have hloop : downloadLoopF true fetch reqArtist date n ((i, track) :: rest) st =
        downloadLoopF true fetch reqArtist date n rest st1 := by
      simp only [downloadLoopF, hok]
    by_cases hs : skips st track
    · have hw : st1.progressWrites = st.progressWrites := by
        have := processTrack_skip_writes fetch reqArtist date n st i track hs
        rw [hok] at this
        exact this
      obtain ⟨idxs, hsub, hwrites⟩ := ih st1
      refine ⟨idxs, List.Sublist.cons i hsub, ?_⟩
      rw [hloop, hwrites, hw]
    · have hw : st1.progressWrites = st.progressWrites ++ [(i : ℚ) / (n : ℚ) * 100] := by
        have := processTrack_noskip_writes fetch reqArtist date n st i track
          (Bool.not_eq_true _ ▸ hs)
        rw [hok] at this
        exact this
      obtain ⟨idxs, hsub, hwrites⟩ := ih st1
      refine ⟨i :: idxs, List.Sublist.cons₂ i hsub, ?_⟩
      rw [hloop, hwrites, hw]
      simp [progressOf]

theorem progressRatio_mono (n : Nat) {i j : Nat} (hij : i ≤ j) :
    progressOf n i ≤ progressOf n j := by
  have hq : (i : ℚ) ≤ (j : ℚ) := by exact_mod_cast hij
  unfold progressOf
  rw [div_eq_mul_inv, div_eq_mul_inv]
  have h1 : (i : ℚ) * (n : ℚ)⁻¹ ≤ (j : ℚ) * (n : ℚ)⁻¹ :=
    mul_le_mul_of_nonneg_right hq (by positivity)
  exact mul_le_mul_of_nonneg_right h1 (by norm_num)

/-- C3 counterexample: a completed job (removed from the queue right after
the loop returns, line 332, with nothing touching progress in between) whose
single resolved candidate is already in the ledger: the job is removed with
progress 0, not 100, because the duplicate skip at line 400 happens before
the progress write at line 405. -/
theorem C3_counterexample :
    download_artist_top_tracks true (fun _ _ => some ["Track"])
        (fun _ _ => some ⟨some "a", "Track", ["Artist"]⟩) (fun _ => true) "2024-01-02"
        [⟨"a", "Artist", "Track", "2024-01-01"⟩] "Artist" 1 =
      .ok (⟨1, 1, 0, 0⟩, ⟨[⟨"a", "Artist", "Track", "2024-01-01"⟩], 0, 0, 0, 1, [], []⟩) ∧
      finalProgress ⟨[⟨"a", "Artist", "Track", "2024-01-01"⟩], 0, 0, 0, 1, [], []⟩ = 0 ∧
      (0 : ℚ) ≠ 100 := by
  refine ⟨?_, rfl, by norm_num⟩
  rfl

/-- The progress values written during a job, in write order, in either
outcome of the job. -/
def jobWrites : Except JobError (Stats × LoopState) → List ℚ
  | .ok (_, st) => st.progressWrites
  | .error .valueError => []
  | .error (.persistenceError st) => st.progressWrites

/-- C3 amended: the sequence of progress values written while a job is
downloading is monotonically non-decreasing; but the job is removed from the
queue when the loop returns regardless of the final progress value, which
equals 100 only when the final resolved candidate was not skipped (see the
counterexample for a completed job removed at progress 0). -/
theorem C3_amended_progress_monotone
    (get_top_tracks : String → Nat → Option (List String))
    (search_song : String → String → Option SongInfo)
    (fetch : String → Bool) (date : String) (database : List DBEntry)
    (artist : String) (limit : Nat) :
    (jobWrites (download_artist_top_tracks true get_top_tracks search_song fetch date
        database artist limit)).Pairwise (· ≤ ·) := by
  unfold download_artist_top_tracks
  by_cases ha : artist.isEmpty
  · simp [ha, jobWrites]
  · rw [Bool.not_eq_true] at ha
    rw [ha]
    simp only [Bool.false_eq_true, if_false]
    cases get_top_tracks artist limit with
    | none => simp [jobWrites, initLoopState]
    | some top_tracks =>
      obtain ⟨st1, hok, -⟩ := downloadLoopF_writable_ok fetch artist date
        ((top_tracks.map (search_song artist)).filterMap id).length
        (enumerate1 ((top_tracks.map (search_song artist)).filterMap id))
        (initLoopState database)
      obtain ⟨idxs, hsub, hwrites⟩ := downloadLoopF_writes_sublist fetch artist date
        ((top_tracks.map (search_song artist)).filterMap id).length
        (enumerate1 ((top_tracks.map (search_song artist)).filterMap id))
        (initLoopState database)
      rw [hok] at hwrites
      simp only [resState, initLoopState, List.nil_append] at hwrites
      simp only []
      rw [hok]
      simp only [jobWrites]
      rw [hwrites, List.pairwise_map]
      have hfst : (enumerate1 ((top_tracks.map (search_song artist)).filterMap id)).map
          Prod.fst =
          List.range' 1 ((top_tracks.map (search_song artist)).filterMap id).length := by
        unfold enumerate1
        exact List.map_fst_zip _ _ (by simp)
      rw [hfst] at hsub
      have hlt : idxs.Pairwise (· < ·) :=
        List.Pairwise.sublist hsub (List.pairwise_lt_range' 1 _)
      exact hlt.imp (fun h => progressRatio_mono _ (Nat.le_of_lt h))

/-- A job dict as appended by `MusicDownloader.add_artist_to_queue`
(lines 310-312): `{"artist": ..., "limit": ..., "progress": 0,
"status": "queued"}`. -/
structure Job where
  artist : String
  limit : Nat
  progress : ℚ
  status : String
deriving Repr, DecidableEq

/-- The dict literal of lines 310-312. -/
def mkJob (artist : String) (limit : Nat) : Job :=
  ⟨artist, limit, 0, "queued"⟩

/-- Orchestrator state shared between the enqueue path and the worker:
the queue (`self.download_queue`), the worker-active flag
(`self.processing`), and, as ghost instrumentation, the number of worker
threads currently alive inside `_process_queue_thread` (`workers`) and the
jobs popped by a worker so far, in pop order (`processedOrder`). -/
structure OrchState where
  download_queue : List Job
  processing : Bool
  workers : Nat
  processedOrder : List Job
deriving Repr, DecidableEq

/-- Atomic (serialized) operations on the orchestrator state: an enqueue
call (`add_artist_to_queue` lines 308-315 together with the `process_queue`
check-and-spawn of lines 317-322, executed without interleaving), a worker
taking and fully processing the head job (lines 326-333), and a worker
observing an empty queue and terminating (line 334, clearing the
`processing` flag as its last action). -/
inductive OrchOp
  | enqueue (artist : String) (limit : Nat)
  | workerPop
  | workerFinish
deriving Repr, DecidableEq

/-- One atomic step of the orchestrator. -/
def orchStep (s : OrchState) : OrchOp → OrchState
  | .enqueue artist limit =>
    let s1 := { s with download_queue := s.download_queue ++ [mkJob artist limit] }
    if !s1.processing && !s1.download_queue.isEmpty then
      { s1 with processing := true, workers := s1.workers + 1 }
    else s1
  | .workerPop =>
    if 0 < s.workers then
      match s.download_queue with
      | [] => s
      | j :: rest =>
        { s with download_queue := rest, processedOrder := s.processedOrder ++ [j] }
    else s
  | .workerFinish =>
    if 0 < s.workers && s.download_queue.isEmpty then
      { s with workers := s.workers - 1, processing := false }
    else s

/-- The initial orchestrator state (constructor, lines 270-272). -/
def orchInit : OrchState :=
  ⟨[], false, 0, []⟩

def runOrch : OrchState → List OrchOp → OrchState
  | s, [] => s
  | s, op :: ops => runOrch (orchStep s op) ops

/-- `MusicDownloader.get_queue` (lines 336-338): returns the live queue. -/
def get_queue (s : OrchState) : List Job :=
  s.download_queue

/-- The jobs enqueued by a sequence of operations, in call order. -/
def enqueuedJobs : List OrchOp → List Job
  | [] => []
  | .enqueue a l :: ops => mkJob a l :: enqueuedJobs ops
  | .workerPop :: ops => enqueuedJobs ops
  | .workerFinish :: ops => enqueuedJobs ops

theorem runOrch_fifo_general (ops : List OrchOp) (s : OrchState) :
    (runOrch s ops).processedOrder ++ (runOrch s ops).download_queue =
      s.processedOrder ++ s.download_queue ++ enqueuedJobs ops := by
  induction ops generalizing s with
  | nil => simp [runOrch, enqueuedJobs]
  | cons op ops ih =>
    rw [runOrch, ih]
    cases op with
    | enqueue a l =>
      unfold orchStep
      by_cases hp : s.processing <;> simp [hp, enqueuedJobs, List.append_assoc]
    | workerPop =>
      unfold orchStep
      by_cases hw : 0 < s.workers
      · simp only [hw, if_true]
        cases hq : s.download_queue with
        | nil => simp [hq, enqueuedJobs]
        | cons j rest => simp [hq, enqueuedJobs, List.append_assoc]
      · simp [hw, enqueuedJobs]
    | workerFinish =>
      unfold orchStep
      by_cases hw : 0 < s.workers
      · cases hq : s.download_queue.isEmpty <;> simp [hw, hq, enqueuedJobs]
      · simp [hw, enqueuedJobs]

/-- C9: for every sequence of serialized enqueue and worker operations, the
jobs a worker has popped so far followed by the snapshot that `get_queue`
returns is exactly the list of enqueued jobs in enqueue order: the snapshot
is FIFO-ordered over the still-pending jobs, and the worker always pops the
head job, processing jobs strictly in enqueue order. -/
theorem C9_queue_fifo (ops : List OrchOp) :
    (runOrch orchInit ops).processedOrder ++ get_queue (runOrch orchInit ops) =
      enqueuedJobs ops := by
  have h := runOrch_fifo_general ops orchInit
  simpa [orchInit, get_queue] using h

/-- The single-worker invariant of the serialized model: a worker thread is
alive exactly when the `processing` flag is set, and never more than one. -/
def workerInv (s : OrchState) : Prop :=
  s.workers = if s.processing then 1 else 0

theorem orchStep_workerInv (s : OrchState) (op : OrchOp) (h : workerInv s) :
    workerInv (orchStep s op) := by
  unfold workerInv at h
  unfold workerInv
  cases op with
  | enqueue a l =>
    cases hp : s.processing with
    | true =>
      rw [hp, if_pos rfl] at h
      simp [orchStep, hp, h]
    | false =>
      rw [hp] at h
      simp only [Bool.false_eq_true, if_false] at h
      simp [orchStep, hp, h]
  | workerPop =>
    cases hp : s.processing with
    | true =>
      rw [hp, if_pos rfl] at h
      cases hq : s.download_queue <;> simp [orchStep, hp, h, hq]
    | false =>
      rw [hp] at h
      simp only [Bool.false_eq_true, if_false] at h
      simp [orchStep, hp, h]
  | workerFinish =>
    cases hp : s.processing with
    | true =>
      rw [hp, if_pos rfl] at h
      cases hq : s.download_queue.isEmpty <;> simp [orchStep, hp, h, hq]
    | false =>
      rw [hp] at h
      simp only [Bool.false_eq_true, if_false] at h
      simp [orchStep, hp, h]

theorem runOrch_workerInv (ops : List OrchOp) (s : OrchState) (h : workerInv s) :
    workerInv (runOrch s ops) := by
  induction ops generalizing s with
  | nil => exact h
  | cons op ops ih => exact ih (orchStep s op) (orchStep_workerInv s op h)

/-- C2 amended: when each enqueue call runs atomically (its read of the
`processing` flag and the flag-set-and-spawn are not interleaved with
another enqueue), at most one worker is ever alive at any instant, and an
enqueue arriving while a worker is active only appends.  The unguarded
check-then-act of lines 314 and 319-321 does not survive interleaving: see
the counterexample. -/
theorem C2_amended_single_worker_serialized (ops : List OrchOp) :
    (runOrch orchInit ops).workers ≤ 1 := by
  have h := runOrch_workerInv ops orchInit (by simp [workerInv, orchInit])
  unfold workerInv at h
  rw [h]
  by_cases hp : (runOrch orchInit ops).processing <;> simp [hp]

/-- The shared variables read and written by an enqueue call: the
`processing` flag, the queue length (its value is all the spawn decision of
line 319 reads of the queue), and, as ghost instrumentation, the number of
worker threads spawned so far (`thread.start()`, line 322). -/
structure SharedState where
  processing : Bool
  queueLen : Nat
  workers : Nat
deriving Repr, DecidableEq

/-- One enqueue call split at its shared-variable accesses, as a small
program over program counters:
pc 0 = `self.download_queue.append(...)` (line 310);
pc 1 = read `self.processing` (line 314), fall through to `process_queue` or
return;
pc 2 = read `self.processing` and the queue again (line 319);
pc 3 = `self.processing = True; thread.start()` (lines 320-322);
pc 4 = returned.  Each pc is one atomic step; the real interpreter can
switch threads between any two of them. -/
def enqMicro (s : SharedState) (pc : Nat) : SharedState × Nat :=
  match pc with
  | 0 => ({ s with queueLen := s.queueLen + 1 }, 1)
  | 1 => if s.processing then (s, 4) else (s, 2)
  | 2 => if !s.processing && decide (0 < s.queueLen) then (s, 3) else (s, 4)
  | 3 => ({ s with processing := true, workers := s.workers + 1 }, 4)
  | _ => (s, pc)

/-- Two concurrent enqueue calls (threads A and B) over the shared state. -/
structure FineState where
  shared : SharedState
  pcA : Nat
  pcB : Nat
deriving Repr, DecidableEq

/-- One scheduler step: `true` lets thread A execute its next
shared-variable access, `false` lets thread B. -/
def fineStep (s : FineState) (choice : Bool) : FineState :=
  if choice then
    let r := enqMicro s.shared s.pcA
    { s with shared := r.1, pcA := r.2 }
  else
    let r := enqMicro s.shared s.pcB
    { s with shared := r.1, pcB := r.2 }

def runSched : FineState → List Bool → FineState
  | s, [] => s
  | s, c :: cs => runSched (fineStep s c) cs

/-- Idle initial state: no worker, empty queue, both enqueue calls about to
start. -/
def fineInit : FineState :=
  ⟨⟨false, 0, 0⟩, 0, 0⟩

/-- C2 counterexample: the interleaving in which both concurrent enqueue
calls read `processing == False` (lines 314 and 319) before either sets it
(line 320) makes both calls spawn a worker thread: two workers are alive at
the same instant (neither has executed any further step, so neither can have
terminated), refuting the claim that every interleaving keeps at most one
worker active. -/
theorem C2_counterexample :
    (runSched fineInit [true, true, true, false, false, false, true, false]).shared.workers
      = 2 := by
  decide

/-- The state of `_process_queue_thread` when it stops (lines 324-334): the
`processing` flag, the remaining queue, and `current_download`.  The loop
takes the head job, marks it `downloading`, runs the job, then pops it.  An
exception escaping the job body (there is no handler in the thread) kills
the thread at once: the flag stays `True`, the head job stays queued, and
`current_download` stays set. -/
def process_queue_thread
    (runJob : String → Nat → Except JobError (Stats × LoopState)) :
    List Job → Bool × List Job × Option Job
  | [] => (false, [], none)
  | j :: rest =>
    let j1 := { j with status := "downloading" }
    match runJob j.artist j.limit with
    | .ok _ => process_queue_thread runJob rest
    | .error _ => (true, j1 :: rest, some j1)

theorem download_writable_ok
    (get_top_tracks : String → Nat → Option (List String))
    (search_song : String → String → Option SongInfo)
    (fetch : String → Bool) (date : String) (database : List DBEntry)
    (artist : String) (limit : Nat) (ha : artist.isEmpty = false) :
    ∃ v, download_artist_top_tracks true get_top_tracks search_song fetch date
      database artist limit = .ok v := by
  unfold download_artist_top_tracks
  rw [ha]
  simp only [Bool.false_eq_true, if_false]
  cases get_top_tracks artist limit with
  | none => exact ⟨_, rfl⟩
  | some top_tracks =>
    obtain ⟨st1, hok, -⟩ := downloadLoopF_writable_ok fetch artist date
      ((top_tracks.map (search_song artist)).filterMap id).length
      (enumerate1 ((top_tracks.map (search_song artist)).filterMap id))
      (initLoopState database)
    simp only []
    rw [hok]
    exact ⟨_, rfl⟩

/-- C5 counterexample: a job enqueued with an empty artist name.  The
`ValueError` of line 362 escapes `_process_queue_thread`, which has no
handler: the worker dies with `processing` still `True`, the job still at
the head of the queue and `current_download` still set; and because
`processing` is stuck `True`, a later enqueue call appends but never spawns
a new worker (line 314), so the worker is not restartable. -/
theorem C5_counterexample :
    process_queue_thread
        (fun a l => download_artist_top_tracks true (fun _ _ => some ["Track"])
          (fun _ _ => some ⟨some "a", "Track", ["Artist"]⟩) (fun _ => true)
          "2024-01-02" [] a l)
        [⟨"", 5, 0, "queued"⟩] =
      (true, [⟨"", 5, 0, "downloading"⟩], some ⟨"", 5, 0, "downloading"⟩) ∧
      (orchStep ⟨[⟨"", 5, 0, "downloading"⟩], true, 0, []⟩
        (.enqueue "Artist" 1)).workers = 0 := by
  exact ⟨rfl, rfl⟩

/-- C5 amended: resolution failures, per-candidate fetch failures and
tag-write failures are all non-fatal, and a worker whose jobs all carry a
non-empty artist name and whose ledger store stays writable drains the
queue to the idle state (flag cleared, queue empty, current job cleared);
but an empty artist name or a ledger write failure raises an exception with
no handler in the worker loop, killing the worker with the `processing`
flag stuck `True`, so later enqueues cannot restart it. -/
theorem C5_amended_worker_drains
    (get_top_tracks : String → Nat → Option (List String))
    (search_song : String → String → Option SongInfo)
    (fetch : String → Bool) (date : String) (database : List DBEntry)
    (q : List Job) (h : ∀ j ∈ q, j.artist.isEmpty = false) :
    process_queue_thread
      (fun a l => download_artist_top_tracks true get_top_tracks search_song fetch
        date database a l) q = (false, [], none) := by
  induction q with
  | nil => rfl
  | cons j rest ih =>
    obtain ⟨v, hv⟩ := download_writable_ok get_top_tracks search_song fetch date
      database j.artist j.limit (h j (List.mem_cons_self j rest))
    simp only [process_queue_thread, hv]
    exact ih (fun j1 hj1 => h j1 (List.mem_cons_of_mem j hj1))

/-- C5 witness: a concrete two-job queue with non-empty artist names drains
to the idle state. -/
theorem C5_witness :
    ([mkJob "ArtistA" 1, mkJob "ArtistB" 2].all (fun j => !j.artist.isEmpty)) = true ∧
      process_queue_thread
        (fun a l => download_artist_top_tracks true (fun _ _ => some ["Track"])
          (fun _ _ => some ⟨some "a", "Track", ["Artist"]⟩) (fun _ => true)
          "2024-01-02" [] a l)
        [mkJob "ArtistA" 1, mkJob "ArtistB" 2] = (false, [], none) :=
  ⟨by decide,
    C5_amended_worker_drains (fun _ _ => some ["Track"])
      (fun _ _ => some ⟨some "a", "Track", ["Artist"]⟩) (fun _ => true)
      "2024-01-02" [] [mkJob "ArtistA" 1, mkJob "ArtistB" 2] (by decide)⟩

end Artistdl
